import Mathlib

/-!
Shallow embedding of the order-fulfillment and commission/referral core of the
rikhh-backend repository (TypeScript/TypeORM), together with proofs about it.

The relational store is modelled as lists of rows; each service method becomes
a pure function from a store (plus its arguments) to an `Except`-style result
carrying the updated store.  Monetary values (`decimal` columns, JS numbers)
are modelled as `Rat`; timestamps as `Nat` (milliseconds).  JS truthiness tests
on numbers/strings are modelled explicitly (`≠ 0`, `≠ ""`).
-/

namespace Rikhh

/-- Order lifecycle statuses, from `order.enums.ts` (`ORDER_STATUS`). -/
inductive OrderStatus
  | pending
  | seller_notified
  | seller_accepted
  | confirmed
  | processing
  | shipped
  | delivered
  | cancelled
  | refunded
  | returned
deriving DecidableEq, Repr, Fintype

/-- String value of each order status, as stored by the enum. -/
def orderStatusText : OrderStatus → String
  | .pending => "pending"
  | .seller_notified => "seller_notified"
  | .seller_accepted => "seller_accepted"
  | .confirmed => "confirmed"
  | .processing => "processing"
  | .shipped => "shipped"
  | .delivered => "delivered"
  | .cancelled => "cancelled"
  | .refunded => "refunded"
  | .returned => "returned"

/-- Platform commission statuses, from `order.enums.ts` / `commission.entity` (`COMMISSION_STATUS`). -/
inductive CommissionStatus
  | pending
  | calculated
  | paid
  | cancelled
deriving DecidableEq, Repr, Fintype

/-- A JavaScript number as it flows through the commission computation and
into the `decimal` column: a rational value or NaN.  The numeric store type
admits NaN, and arithmetic with a NaN or undefined operand yields NaN. -/
inductive JsNum
  | num (q : Rat)
  | nan
deriving DecidableEq, Repr

/-- JS addition: NaN propagates. -/
def JsNum.add : JsNum → JsNum → JsNum
  | .num a, .num b => .num (a + b)
  | _, _ => .nan

/-- JS multiplication: NaN propagates. -/
def JsNum.mul : JsNum → JsNum → JsNum
  | .num a, .num b => .num (a * b)
  | _, _ => .nan

/-- JS multiplication of a number by a possibly-undefined operand: an
undefined operand behaves as NaN, so the product is NaN. -/
def jsMulUndef (a : Rat) (b : Option Rat) : JsNum :=
  match b with
  | some q => .num (a * q)
  | none => .nan

/-- A platform `Commission` row: one per (order, seller) commission
computation.  The `commissionAmount` column holds a JS number, NaN included:
the engine in fact always writes NaN (see `itemPrice`). -/
structure Commission where
  id : String
  orderId : String
  sellerId : String
  orderAmount : Rat
  commissionRate : Rat
  commissionAmount : JsNum
  status : CommissionStatus
  notes : String
  paidAt : Option Nat
deriving DecidableEq, Repr

/-- The slice of a `Product` row the core reads: its seller linkage and price. -/
structure Product where
  id : String
  sellerId : Option String
  regularPrice : Rat
deriving DecidableEq, Repr

/-- An `OrderItem` row: denormalized snapshot of a purchased product.  The
entity declares `unitPrice` and `totalPrice` decimal columns (and no `price`
column). -/
structure OrderItem where
  orderId : String
  productId : String
  product : Option Product
  quantity : Nat
  unitPrice : Rat
  totalPrice : Rat
deriving DecidableEq, Repr

/-- The slice of an `Order` row the core reads and mutates. -/
structure Order where
  id : String
  orderNumber : String
  status : OrderStatus
  totalAmount : Rat
  trackingNumber : Option String
  estimatedDeliveryDate : Option Nat
  notes : Option String
deriving DecidableEq, Repr

/-- An `OrderStatusHistory` row: one per recorded transition. -/
structure OrderStatusHistory where
  orderId : String
  status : OrderStatus
  previousStatus : OrderStatus
  notes : String
  notificationSent : Bool
deriving DecidableEq, Repr

/-- The relational store as seen by the checkout module services/controllers. -/
structure CheckoutStore where
  orders : List Order
  orderItems : List OrderItem
  statusHistory : List OrderStatusHistory
  commissions : List Commission
deriving DecidableEq, Repr

/-- Errors thrown by `CommissionService` methods. -/
inductive ServiceError
  | orderNotFound
  | orderNotDelivered
  | commissionNotFound
deriving DecidableEq, Repr

/-- From `CommissionService.getCommissionRate`: flat default 10 percent. -/
def getCommissionRate (_sellerId : String) : Rat := 10

/-- The items belonging to an order (the `items` relation). -/
def itemsOfOrder (st : CheckoutStore) (orderId : String) : List OrderItem :=
  st.orderItems.filter (fun i => i.orderId == orderId)

/-- Seller owning the product of an item, mirroring the `item.product?.sellerId`
truthiness test (an empty-string sellerId is falsy in JS). -/
def itemSeller (i : OrderItem) : Option String :=
  match i.product with
  | some p =>
    match p.sellerId with
    | some s => if s != "" then some s else none
    | none => none
  | none => none

/-- The `price` property read at commission.service.ts line 41: the
OrderItem entity declares only `unitPrice` and `totalPrice`, no `price`, so
the access yields `undefined` for every item. -/
def itemPrice (_i : OrderItem) : Option Rat := none

/-- Per-seller accumulator entry of `calculateAndCreateCommission`
(the value type of its `Map<string, { amount, rate }>`). -/
structure SellerCommissionData where
  amount : JsNum
  rate : Rat
deriving DecidableEq, Repr

/-- One step of the item loop in `calculateAndCreateCommission`: skip items
without a seller; otherwise compute `item.quantity * item.price` — the
`price` read is `undefined`, so the product is NaN — times `rate / 100`, and
add it into the map entry of the seller, inserting a fresh entry (insertion
order preserved) when absent. -/
def addItemCommission (acc : List (String × SellerCommissionData)) (item : OrderItem) :
    List (String × SellerCommissionData) :=
  match itemSeller item with
  | none => acc
  | some sellerId =>
    let itemTotal : JsNum := jsMulUndef (item.quantity : Rat) (itemPrice item)
    let commissionRate : Rat := getCommissionRate sellerId
    let commissionAmount : JsNum := itemTotal.mul (.num (commissionRate / 100))
    if (acc.find? (fun e => e.1 == sellerId)).isSome then
      acc.map (fun e =>
        if e.1 == sellerId then (e.1, ⟨e.2.amount.add commissionAmount, e.2.rate⟩) else e)
    else
      acc ++ [(sellerId, ⟨commissionAmount, commissionRate⟩)]

/-- The grouped per-seller commission data for a list of order items. -/
def sellerCommissions (items : List OrderItem) : List (String × SellerCommissionData) :=
  items.foldl addItemCommission []

/-- From `CommissionService.calculateAndCreateCommission(orderId)`: requires the
order to exist and be `delivered`; groups items by seller, accumulates each
per-item `quantity * price * (rate / 100)` — NaN, since `price` does not
exist on OrderItem — then appends one `calculated` Commission row per seller
(note: `orderAmount` is set to `order.totalAmount`). -/
def calculateAndCreateCommission (st : CheckoutStore) (orderId : String) :
    Except ServiceError (List Commission × CheckoutStore) :=
  match st.orders.find? (fun o => o.id == orderId) with
  | none => .error .orderNotFound
  | some order =>
    if order.status != .delivered then .error .orderNotDelivered
    else
      let grouped := sellerCommissions (itemsOfOrder st orderId)
      let newRows : List Commission := grouped.map (fun e =>
        { id := ""
          orderId := orderId
          sellerId := e.1
          orderAmount := order.totalAmount
          commissionRate := e.2.rate
          commissionAmount := e.2.amount
          status := .calculated
          notes := "Commission calculated for order #" ++ order.orderNumber
          paidAt := none })
      .ok (newRows, { st with commissions := st.commissions ++ newRows })

/-- From `CommissionService.markCommissionAsPaid(commissionId)`: looks the row
up by id, then unconditionally sets status `paid` and stamps `paidAt` (the
source has no status guard and takes no payout reference). -/
def markCommissionAsPaid (st : CheckoutStore) (commissionId : String) (now : Nat) :
    Except ServiceError (Commission × CheckoutStore) :=
  match st.commissions.find? (fun c => c.id == commissionId) with
  | none => .error .commissionNotFound
  | some commission =>
    let commission2 := { commission with status := CommissionStatus.paid, paidAt := some now }
    .ok (commission2,
      { st with commissions :=
          st.commissions.map (fun c => if c.id == commissionId then commission2 else c) })

/-- Sum of `Number(c.commissionAmount)` over a list of rows (the `reduce` in
the source); JS addition, so any NaN amount makes the whole sum NaN. -/
def sumAmounts (rows : List Commission) : JsNum :=
  rows.foldl (fun s c => s.add c.commissionAmount) (.num 0)

/-- Result shape of `getCommissionSummary`. -/
structure CommissionSummary where
  totalEarned : JsNum
  totalPaid : JsNum
  pendingAmount : JsNum
  commissionCount : Nat
deriving DecidableEq, Repr

/-- From `CommissionService.getCommissionSummary(sellerId)`: fetches all of the
Commission rows of the seller; `totalEarned` sums every row regardless of status,
`totalPaid` only `paid` rows, `pendingAmount` only `calculated` rows. -/
def getCommissionSummary (st : CheckoutStore) (sellerId : String) : CommissionSummary :=
  let commissions := st.commissions.filter (fun c => c.sellerId == sellerId)
  { totalEarned := sumAmounts commissions
    totalPaid := sumAmounts (commissions.filter (fun c => c.status == CommissionStatus.paid))
    pendingAmount := sumAmounts (commissions.filter (fun c => c.status == CommissionStatus.calculated))
    commissionCount := commissions.length }

/-- HTTP-level failures returned by `SellerOrderController` handlers. -/
inductive ApiError
  | accessDenied
  | orderNotFound
  | invalidState
  | invalidTransition
deriving DecidableEq, Repr

/-- From `SellerOrderController.isValidStatusTransition`: the allowed next
states for each current status (the `validTransitions` record). -/
def validTransitions : OrderStatus → List OrderStatus
  | .pending => [.cancelled]
  | .seller_notified => [.seller_accepted, .cancelled]
  | .seller_accepted => [.confirmed, .cancelled]
  | .confirmed => [.processing, .cancelled]
  | .processing => [.shipped, .cancelled]
  | .shipped => [.delivered, .cancelled]
  | .delivered => [.returned]
  | .cancelled => []
  | .refunded => []
  | .returned => []

/-- The transition check itself: membership in the row of the current status. -/
def isValidStatusTransition (currentStatus newStatus : OrderStatus) : Bool :=
  (validTransitions currentStatus).contains newStatus

/-- The order items of `orderId` whose product belongs to `sellerId` (the
`where: { orderId, product: { sellerId } }` join used for authorization). -/
def ownedItems (st : CheckoutStore) (sellerId orderId : String) : List OrderItem :=
  st.orderItems.filter (fun i =>
    i.orderId == orderId &&
      (match i.product with
       | some p => p.sellerId == some sellerId
       | none => false))

/-- Save of a mutated order row: replace the row with the same id. -/
def saveOrder (st : CheckoutStore) (o : Order) : CheckoutStore :=
  { st with orders := st.orders.map (fun x => if x.id == o.id then o else x) }

/-- Append a status-history row (repository `create` + `save`). -/
def appendHistory (st : CheckoutStore) (row : OrderStatusHistory) : CheckoutStore :=
  { st with statusHistory := st.statusHistory ++ [row] }

/-- Notes text `notes || ""` under JS truthiness. -/
def notesOrEmpty (notes : Option String) : String :=
  match notes with
  | some s => if s != "" then s else ""
  | none => ""

/-- From `SellerOrderController.acceptOrder`: access check (owned items),
then lookup, then the `seller_notified` guard; on success mutates the order to
`seller_accepted`, saves it and appends the history row.  Every failure path
returns before any mutation. -/
def acceptOrder (st : CheckoutStore) (sellerId orderId : String)
    (notes : Option String) (estimatedProcessingTime : Option Nat) :
    Except ApiError (Order × CheckoutStore) :=
  if (ownedItems st sellerId orderId).isEmpty then .error .accessDenied
  else
    match st.orders.find? (fun o => o.id == orderId) with
    | none => .error .orderNotFound
    | some order =>
      if order.status != .seller_notified then .error .invalidState
      else
        let order2 : Order :=
          { order with
            status := OrderStatus.seller_accepted
            notes :=
              match estimatedProcessingTime with
              | some t =>
                if t != 0 then
                  some ("Estimated processing time: " ++ toString t ++ " days. " ++
                    notesOrEmpty notes)
                else
                  match notes with
                  | some s => if s != "" then some s else order.notes
                  | none => order.notes
              | none =>
                match notes with
                | some s => if s != "" then some s else order.notes
                | none => order.notes }
        let st2 := appendHistory (saveOrder st order2)
          { orderId := orderId
            status := OrderStatus.seller_accepted
            previousStatus := OrderStatus.seller_notified
            notes := "Order accepted by seller. " ++ notesOrEmpty notes
            notificationSent := true }
        .ok (order2, st2)

/-- The order row as mutated by `updateOrderStatus` before saving. -/
def updatedOrder (order : Order) (status : OrderStatus)
    (notes trackingNumber : Option String) (estimatedDeliveryDate : Option Nat) : Order :=
  { order with
    status := status
    trackingNumber :=
      match trackingNumber with
      | some t => if t != "" then some t else order.trackingNumber
      | none => order.trackingNumber
    estimatedDeliveryDate :=
      match estimatedDeliveryDate with
      | some d => some d
      | none => order.estimatedDeliveryDate
    notes :=
      match notes with
      | some s => if s != "" then some s else order.notes
      | none => order.notes }

/-- The history row appended by `updateOrderStatus`. -/
def updateHistoryRow (orderId : String) (status previousStatus : OrderStatus)
    (notes : Option String) : OrderStatusHistory :=
  { orderId := orderId
    status := status
    previousStatus := previousStatus
    notes :=
      match notes with
      | some s => if s != "" then s else "Status updated to " ++ orderStatusText status
      | none => "Status updated to " ++ orderStatusText status
    notificationSent := true }

/-- From `SellerOrderController.updateOrderStatus`, parametrized by the
commission engine it calls (`this.commissionService`): access check, lookup,
transition validation; on success saves the mutated order, appends the history
row, and — only when the new status is `delivered` — invokes the engine inside
a try/catch whose error branch keeps the already-persisted store and still
returns success. -/
def updateOrderStatusWith
    (engine : CheckoutStore → String → Except ServiceError (List Commission × CheckoutStore))
    (st : CheckoutStore) (sellerId orderId : String) (status : OrderStatus)
    (notes trackingNumber : Option String) (estimatedDeliveryDate : Option Nat) :
    Except ApiError (Order × CheckoutStore) :=
  if (ownedItems st sellerId orderId).isEmpty then .error .accessDenied
  else
    match st.orders.find? (fun o => o.id == orderId) with
    | none => .error .orderNotFound
    | some order =>
      if !isValidStatusTransition order.status status then .error .invalidTransition
      else
        let previousStatus := order.status
        let order2 := updatedOrder order status notes trackingNumber estimatedDeliveryDate
        let st2 := appendHistory (saveOrder st order2)
          (updateHistoryRow orderId status previousStatus notes)
        let st3 :=
          if status = OrderStatus.delivered then
            match engine st2 orderId with
            | .ok (_, stc) => stc
            | .error _ => st2
          else st2
        .ok (order2, st3)

/-- The deployed `updateOrderStatus`, wired to `CommissionService`. -/
def updateOrderStatus (st : CheckoutStore) (sellerId orderId : String) (status : OrderStatus)
    (notes trackingNumber : Option String) (estimatedDeliveryDate : Option Nat) :
    Except ApiError (Order × CheckoutStore) :=
  updateOrderStatusWith calculateAndCreateCommission st sellerId orderId status
    notes trackingNumber estimatedDeliveryDate

/-- A seller-facing request against the controller. -/
inductive SellerOp
  | accept (sellerId orderId : String) (notes : Option String) (ept : Option Nat)
  | update (sellerId orderId : String) (status : OrderStatus)
      (notes trackingNumber : Option String) (edd : Option Nat)

/-- Effect of one request on the store: failed requests leave it unchanged
(every error path in the source returns before any write). -/
def applySellerOp (st : CheckoutStore) : SellerOp → CheckoutStore
  | .accept sellerId orderId notes ept =>
    match acceptOrder st sellerId orderId notes ept with
    | .ok r => r.2
    | .error _ => st
  | .update sellerId orderId status notes trackingNumber edd =>
    match updateOrderStatus st sellerId orderId status notes trackingNumber edd with
    | .ok r => r.2
    | .error _ => st

/-- Replay a sequence of seller requests. -/
def runSellerOps (st : CheckoutStore) (ops : List SellerOp) : CheckoutStore :=
  ops.foldl applySellerOp st

/-- Every recorded history row is a transition allowed by the table. -/
def historyValid (st : CheckoutStore) : Prop :=
  ∀ row ∈ st.statusHistory, isValidStatusTransition row.previousStatus row.status = true

/-- Referral program types, from `referral.entity.ts` (`REFERRAL_TYPE`). -/
inductive ReferralType
  | seller_account
  | product
deriving DecidableEq, Repr, Fintype

/-- Referral statuses, from `referral.entity.ts` (`REFERRAL_STATUS`). -/
inductive ReferralStatus
  | pending
  | active
  | completed
  | expired
  | cancelled
deriving DecidableEq, Repr, Fintype

/-- Referral-commission statuses, from `referral.entity.ts` (`COMMISSION_STATUS`). -/
inductive RefCommissionStatus
  | pending
  | earned
  | paid
  | cancelled
deriving DecidableEq, Repr, Fintype

/-- A `ReferralCode` row. -/
structure ReferralCode where
  id : String
  code : String
  isActive : Bool
  commissionRate : Rat
  maxUsage : Option Nat
  usageCount : Nat
  expiresAt : Option Nat
deriving DecidableEq, Repr

/-- A `Referral` row. -/
structure Referral where
  id : String
  referrerId : String
  referredId : String
  rtype : ReferralType
  status : ReferralStatus
  referralCode : Option String
  productId : Option String
  sellerId : Option String
  commissionRate : Rat
  totalCommission : Rat
  expiresAt : Option Nat
deriving DecidableEq, Repr

/-- A `ReferralCommission` row. -/
structure ReferralCommission where
  referralId : String
  orderId : String
  orderAmount : Rat
  commissionRate : Rat
  commissionAmount : Rat
  status : RefCommissionStatus
deriving DecidableEq, Repr

/-- The slice of a `Seller` row read by the referral service. -/
structure Seller where
  id : String
  totalRevenue : Rat
deriving DecidableEq, Repr

/-- The relational store as seen by `ReferralService`. -/
structure ReferralStore where
  codes : List ReferralCode
  referrals : List Referral
  refCommissions : List ReferralCommission
  sellers : List Seller
deriving DecidableEq, Repr

/-- Errors thrown by `ReferralService.createReferral`. -/
inductive RefError
  | invalidCode
  | codeExpired
  | usageLimitReached
  | alreadyReferred
deriving DecidableEq, Repr

/-- Payload of `createReferral` (its `CreateReferralDto`). -/
structure CreateReferralDto where
  referrerId : String
  referredId : String
  rtype : ReferralType
  referralCode : String
  productId : Option String
  sellerId : Option String
  commissionRate : Option Rat
deriving DecidableEq, Repr

/-- The `referralCode.expiresAt && referralCode.expiresAt < new Date()` check. -/
def codeIsExpired (rc : ReferralCode) (now : Nat) : Bool :=
  match rc.expiresAt with
  | some t => decide (t < now)
  | none => false

/-- The `referralCode.maxUsage && referralCode.usageCount >= referralCode.maxUsage`
check (a zero `maxUsage` is falsy in JS, hence no cap). -/
def codeCapReached (rc : ReferralCode) : Bool :=
  match rc.maxUsage with
  | some m => m != 0 && decide (m ≤ rc.usageCount)
  | none => false

/-- Milliseconds in the 30-day default referral expiration window. -/
def thirtyDaysMs : Nat := 30 * 24 * 60 * 60 * 1000

/-- From `ReferralService.createReferral`: validates the code (active, then
unexpired, then under its usage cap), rejects when a Referral already exists
for `(referredId, type)`, defaults the commission rate from the code (a zero
caller rate is falsy), then creates the Referral in `pending` state expiring
in 30 days and increments the `usageCount` of the code.  `newId` stands for the
store-assigned row id. -/
def createReferral (st : ReferralStore) (now : Nat) (newId : String)
    (d : CreateReferralDto) : Except RefError (Referral × ReferralStore) :=
  match st.codes.find? (fun c => c.code == d.referralCode && c.isActive) with
  | none => .error .invalidCode
  | some rc =>
    if codeIsExpired rc now then .error .codeExpired
    else if codeCapReached rc then .error .usageLimitReached
    else if (st.referrals.find? (fun r =>
        r.referredId == d.referredId && r.rtype == d.rtype)).isSome then
      .error .alreadyReferred
    else
      let rate : Rat :=
        match d.commissionRate with
        | some q => if q == 0 then rc.commissionRate else q
        | none => rc.commissionRate
      let referral : Referral :=
        { id := newId
          referrerId := d.referrerId
          referredId := d.referredId
          rtype := d.rtype
          status := ReferralStatus.pending
          referralCode := some d.referralCode
          productId := d.productId
          sellerId := d.sellerId
          commissionRate := rate
          totalCommission := 0
          expiresAt := some (now + thirtyDaysMs) }
      let rc2 := { rc with usageCount := rc.usageCount + 1 }
      .ok (referral,
        { st with
          referrals := st.referrals ++ [referral]
          codes := st.codes.map (fun c => if c.id == rc.id then rc2 else c) })

/-- From `ReferralService.processSellerReferralCommission(sellerId)`: finds the
`active` seller-account Referral for the seller (silently returning when there
is none, or when the seller is absent or has non-positive revenue), computes
`totalRevenue * rate / 100`, appends an `earned` ReferralCommission row and
adds the amount to the `totalCommission` of the Referral. -/
def processSellerReferralCommission (st : ReferralStore) (sellerId : String) : ReferralStore :=
  match st.referrals.find? (fun r =>
      r.sellerId == some sellerId &&
        r.rtype == ReferralType.seller_account &&
        r.status == ReferralStatus.active) with
  | none => st
  | some referral =>
    match st.sellers.find? (fun s => s.id == sellerId) with
    | none => st
    | some seller =>
      if seller.totalRevenue ≤ 0 then st
      else
        let commissionAmount : Rat := seller.totalRevenue * referral.commissionRate / 100
        let row : ReferralCommission :=
          { referralId := referral.id
            orderId := ""
            orderAmount := seller.totalRevenue
            commissionRate := referral.commissionRate
            commissionAmount := commissionAmount
            status := RefCommissionStatus.earned }
        let referral2 :=
          { referral with totalCommission := referral.totalCommission + commissionAmount }
        { st with
          refCommissions := st.refCommissions ++ [row]
          referrals := st.referrals.map (fun r => if r.id == referral.id then referral2 else r) }

/-- At most one Referral per `(referredId, type)` pair. -/
def atMostOnePerPair (rs : List Referral) : Prop :=
  rs.Pairwise (fun a b => ¬(a.referredId = b.referredId ∧ a.rtype = b.rtype))

/-! Specification-side vocabulary used to state the claims. -/

/-- Sum of `quantity * unitPrice` over the items of seller `sid`: the
attributed order amount of the seller, in the words of the spec (the code
instead reads the absent `price` property). -/
def sellerTotal : List OrderItem → String → Rat
  | [], _ => 0
  | i :: is, sid =>
    (if itemSeller i = some sid then (i.quantity : Rat) * i.unitPrice else 0) +
      sellerTotal is sid

/-- The allowed transition table exactly as the specification states it. -/
def allowedTransitionPairs : List (OrderStatus × OrderStatus) :=
  [(.pending, .cancelled),
   (.seller_notified, .seller_accepted), (.seller_notified, .cancelled),
   (.seller_accepted, .confirmed), (.seller_accepted, .cancelled),
   (.confirmed, .processing), (.confirmed, .cancelled),
   (.processing, .shipped), (.processing, .cancelled),
   (.shipped, .delivered), (.shipped, .cancelled),
   (.delivered, .returned)]

/-! Concrete instances used to exercise the theorems. -/

/-- A delivered single-seller order record (seller s1). -/
def dupOrder : Order :=
  { id := "o1", orderNumber := "ORD-7", status := .delivered, totalAmount := 10,
    trackingNumber := none, estimatedDeliveryDate := none, notes := none }

/-- The single item of `dupOrder`: seller s1, quantity 1, unit price 10. -/
def dupItem : OrderItem :=
  { orderId := "o1", productId := "p1",
    product := some { id := "p1", sellerId := some "s1", regularPrice := 10 },
    quantity := 1, unitPrice := 10, totalPrice := 10 }

/-- Store holding the delivered single-seller order. -/
def dupStore : CheckoutStore :=
  { orders := [dupOrder], orderItems := [dupItem], statusHistory := [], commissions := [] }

/-- The order row of the commission scenario of the spec (total 50). -/
def scenarioOrder : Order :=
  { id := "o1", orderNumber := "ORD-1", status := .delivered, totalAmount := 50,
    trackingNumber := none, estimatedDeliveryDate := none, notes := none }

/-- Scenario item of seller A: unit price 10, quantity 2. -/
def scenarioItemA : OrderItem :=
  { orderId := "o1", productId := "pA",
    product := some { id := "pA", sellerId := some "sellerA", regularPrice := 10 },
    quantity := 2, unitPrice := 10, totalPrice := 20 }

/-- Scenario item of seller B: unit price 30, quantity 1. -/
def scenarioItemB : OrderItem :=
  { orderId := "o1", productId := "pB",
    product := some { id := "pB", sellerId := some "sellerB", regularPrice := 30 },
    quantity := 1, unitPrice := 30, totalPrice := 30 }

/-- The spec scenario store. -/
def scenarioStore : CheckoutStore :=
  { orders := [scenarioOrder], orderItems := [scenarioItemA, scenarioItemB],
    statusHistory := [], commissions := [] }

/-- Commission row produced for scenario seller A (NaN amount). -/
def scenarioRowA : Commission :=
  { id := "", orderId := "o1", sellerId := "sellerA", orderAmount := 50,
    commissionRate := 10, commissionAmount := .nan, status := .calculated,
    notes := "Commission calculated for order #ORD-1", paidAt := none }

/-- Commission row produced for scenario seller B (NaN amount). -/
def scenarioRowB : Commission :=
  { id := "", orderId := "o1", sellerId := "sellerB", orderAmount := 50,
    commissionRate := 10, commissionAmount := .nan, status := .calculated,
    notes := "Commission calculated for order #ORD-1", paidAt := none }

/-- A cancelled commission row used against `markCommissionAsPaid`. -/
def cancelledRow : Commission :=
  { id := "c1", orderId := "o1", sellerId := "s1", orderAmount := 10,
    commissionRate := 10, commissionAmount := .num 1, status := .cancelled,
    notes := "", paidAt := none }

/-- Store holding only `cancelledRow`. -/
def cancelledRowStore : CheckoutStore :=
  { orders := [], orderItems := [], statusHistory := [], commissions := [cancelledRow] }

/-- A zero-amount cancelled commission row for seller s1. -/
def zeroCancelledRow : Commission :=
  { id := "c1", orderId := "o1", sellerId := "s1", orderAmount := 0,
    commissionRate := 10, commissionAmount := .num 0, status := .cancelled,
    notes := "", paidAt := none }

/-- Store holding only `zeroCancelledRow`. -/
def zeroCancelledStore : CheckoutStore :=
  { orders := [], orderItems := [], statusHistory := [], commissions := [zeroCancelledRow] }

/-- A paid commission row of amount 5 for seller s1. -/
def mixedPaidRow : Commission :=
  { id := "c1", orderId := "o1", sellerId := "s1", orderAmount := 50,
    commissionRate := 10, commissionAmount := .num 5, status := .paid,
    notes := "", paidAt := some 1 }

/-- A calculated commission row of amount 7 for seller s1. -/
def mixedCalculatedRow : Commission :=
  { id := "c2", orderId := "o2", sellerId := "s1", orderAmount := 70,
    commissionRate := 10, commissionAmount := .num 7, status := .calculated,
    notes := "", paidAt := none }

/-- A cancelled commission row of amount 3 for seller s1. -/
def mixedCancelledRow : Commission :=
  { id := "c3", orderId := "o3", sellerId := "s1", orderAmount := 30,
    commissionRate := 10, commissionAmount := .num 3, status := .cancelled,
    notes := "", paidAt := none }

/-- Seller s1 with a paid, a calculated and a cancelled commission row. -/
def mixedSummaryStore : CheckoutStore :=
  { orders := [], orderItems := [], statusHistory := [],
    commissions := [mixedPaidRow, mixedCalculatedRow, mixedCancelledRow] }

/-- A confirmed order record (for the acceptOrder scenario). -/
def confirmedOrder : Order :=
  { id := "o1", orderNumber := "ORD-2", status := .confirmed, totalAmount := 10,
    trackingNumber := none, estimatedDeliveryDate := none, notes := none }

/-- Store with the confirmed order owned by seller s1. -/
def confirmedStore : CheckoutStore :=
  { orders := [confirmedOrder], orderItems := [dupItem], statusHistory := [], commissions := [] }

/-- A shipped order record (one valid step from delivered). -/
def shippedOrder : Order :=
  { id := "o1", orderNumber := "ORD-3", status := .shipped, totalAmount := 10,
    trackingNumber := none, estimatedDeliveryDate := none, notes := none }

/-- Store with the shipped order owned by seller s1. -/
def shippedStore : CheckoutStore :=
  { orders := [shippedOrder], orderItems := [dupItem], statusHistory := [], commissions := [] }

/-- A commission engine that always fails. -/
def failingEngine : CheckoutStore → String → Except ServiceError (List Commission × CheckoutStore) :=
  fun _ _ => .error .orderNotFound

/-- A seller-notified order record, for replaying seller operations. -/
def notifiedOrder : Order :=
  { id := "o1", orderNumber := "ORD-4", status := .seller_notified, totalAmount := 10,
    trackingNumber := none, estimatedDeliveryDate := none, notes := none }

/-- Store with the seller-notified order owned by seller s1. -/
def notifiedStore : CheckoutStore :=
  { orders := [notifiedOrder], orderItems := [dupItem], statusHistory := [], commissions := [] }

/-- An active referral code with no cap. -/
def demoCode : ReferralCode :=
  { id := "rc1", code := "ABCD1234", isActive := true, commissionRate := 10,
    maxUsage := none, usageCount := 0, expiresAt := none }

/-- An existing pending referral of user u2 into the seller-account program. -/
def existingReferral : Referral :=
  { id := "r0", referrerId := "u1", referredId := "u2", rtype := .seller_account,
    status := .pending, referralCode := some "ABCD1234", productId := none,
    sellerId := none, commissionRate := 10, totalCommission := 0, expiresAt := none }

/-- Referral store with `demoCode` and `existingReferral`. -/
def referralDemoStore : ReferralStore :=
  { codes := [demoCode], referrals := [existingReferral], refCommissions := [], sellers := [] }

/-- Payload referring user u3 through code ABCD1234. -/
def referralDtoNew : CreateReferralDto :=
  { referrerId := "u1", referredId := "u3", rtype := .seller_account,
    referralCode := "ABCD1234", productId := none, sellerId := none, commissionRate := none }

/-- Payload referring the already-referred user u2 through code ABCD1234. -/
def referralDtoDup : CreateReferralDto :=
  { referrerId := "u1", referredId := "u2", rtype := .seller_account,
    referralCode := "ABCD1234", productId := none, sellerId := none, commissionRate := none }

/-- An active seller-account referral for approved seller s1 at rate 10. -/
def activeSellerReferral : Referral :=
  { id := "r1", referrerId := "u1", referredId := "u9", rtype := .seller_account,
    status := .active, referralCode := some "ABCD1234", productId := none,
    sellerId := some "s1", commissionRate := 10, totalCommission := 0, expiresAt := none }

/-- Referral store with `activeSellerReferral` and seller s1 at revenue 1000. -/
def sellerReferralStore : ReferralStore :=
  { codes := [], referrals := [activeSellerReferral], refCommissions := [],
    sellers := [{ id := "s1", totalRevenue := 1000 }] }

/-- The Referral created for user u3 by consuming `demoCode` at time 0. -/
def createdReferral : Referral :=
  { id := "r9", referrerId := "u1", referredId := "u3", rtype := .seller_account,
    status := .pending, referralCode := some "ABCD1234", productId := none,
    sellerId := none, commissionRate := 10, totalCommission := 0,
    expiresAt := some (0 + thirtyDaysMs) }

/-- Store state after the successful referral of u3. -/
def bumpedStore : ReferralStore :=
  { referralDemoStore with
    referrals := referralDemoStore.referrals ++ [createdReferral]
    codes := [{ demoCode with usageCount := 1 }] }

/-! Lemmas about JS-number arithmetic and the per-seller accumulator. -/

theorem JsNum.add_nan (x : JsNum) : x.add .nan = .nan := by cases x <;> rfl

theorem JsNum.nan_add (x : JsNum) : JsNum.nan.add x = .nan := by cases x <;> rfl

theorem JsNum.zero_add (x : JsNum) : (JsNum.num 0).add x = x := by
  cases x <;> simp [JsNum.add]

theorem JsNum.add_zero (x : JsNum) : x.add (JsNum.num 0) = x := by
  cases x <;> simp [JsNum.add]

theorem JsNum.add_comm (x y : JsNum) : x.add y = y.add x := by
  cases x with
  | num a =>
    cases y with
    | num b =>
      exact congrArg JsNum.num (Rat.add_comm a b)
    | nan => rfl
  | nan => cases y <;> rfl

theorem JsNum.add_assoc (x y z : JsNum) : (x.add y).add z = x.add (y.add z) := by
  cases x with
  | num a =>
    cases y with
    | num b =>
      cases z with
      | num c =>
        exact congrArg JsNum.num (Rat.add_assoc a b c)
      | nan => rfl
    | nan => cases z <;> rfl
  | nan => cases y <;> cases z <;> rfl

theorem JsNum.add_left_comm (x y z : JsNum) : x.add (y.add z) = y.add (x.add z) := by
  rw [← JsNum.add_assoc, JsNum.add_comm x y, JsNum.add_assoc]

/-- One loop step keeps every accumulator entry at a NaN amount (the absent
`price` makes every per-item total NaN) with the default rate of its seller. -/
theorem addItemCommission_entries (acc : List (String × SellerCommissionData))
    (i : OrderItem)
    (hinv : ∀ e ∈ acc, e.2.amount = JsNum.nan ∧ e.2.rate = getCommissionRate e.1) :
    ∀ e ∈ addItemCommission acc i,
      e.2.amount = JsNum.nan ∧ e.2.rate = getCommissionRate e.1 := by
  cases hseller : itemSeller i with
  | none =>
    simp only [addItemCommission, hseller]
    exact hinv
  | some s =>
    simp only [addItemCommission, hseller, itemPrice, jsMulUndef, JsNum.mul]
    by_cases hguard : (acc.find? (fun e => e.1 == s)).isSome = true
    · rw [if_pos hguard]
      intro e he
      obtain ⟨x, hx, rfl⟩ := List.mem_map.mp he
      by_cases hxs : (x.1 == s) = true
      · rw [if_pos hxs]
        exact ⟨JsNum.add_nan x.2.amount, (hinv x hx).2⟩
      · rw [if_neg hxs]
        exact hinv x hx
    · rw [if_neg hguard]
      intro e he
      rcases List.mem_append.mp he with hm | hm
      · exact hinv e hm
      · rw [List.mem_singleton] at hm
        subst hm
        exact ⟨rfl, rfl⟩

/-- Every entry of the grouped accumulator carries a NaN amount and the
default rate of its seller. -/
theorem sellerCommissions_entries (items : List OrderItem) :
    ∀ e ∈ sellerCommissions items,
      e.2.amount = JsNum.nan ∧ e.2.rate = getCommissionRate e.1 := by
  have h : ∀ (its : List OrderItem) (acc : List (String × SellerCommissionData)),
      (∀ e ∈ acc, e.2.amount = JsNum.nan ∧ e.2.rate = getCommissionRate e.1) →
      ∀ e ∈ its.foldl addItemCommission acc,
        e.2.amount = JsNum.nan ∧ e.2.rate = getCommissionRate e.1 := by
    intro its
    induction its with
    | nil => intro acc hinv; simpa using hinv
    | cons i is ih =>
      intro acc hinv
      rw [List.foldl_cons]
      exact ih _ (addItemCommission_entries acc i hinv)
  exact h items [] (by intro e he; cases he)

/-- A successful commission computation only appends commission rows. -/
theorem calculateAndCreateCommission_frame (st : CheckoutStore) (oid : String)
    (rows : List Commission) (st2 : CheckoutStore)
    (h : calculateAndCreateCommission st oid = .ok (rows, st2)) :
    st2.statusHistory = st.statusHistory ∧ st2.orders = st.orders ∧
      st2.orderItems = st.orderItems ∧ st2.commissions = st.commissions ++ rows := by
  unfold calculateAndCreateCommission at h
  cases hfind : st.orders.find? (fun o => o.id == oid) with
  | none => simp [hfind] at h
  | some order =>
    simp only [hfind] at h
    by_cases hst : (order.status != OrderStatus.delivered) = true
    · rw [if_pos hst] at h; cases h
    · rw [if_neg hst] at h
      simp only [Except.ok.injEq, Prod.mk.injEq] at h
      obtain ⟨hrows, hstore⟩ := h
      rw [← hstore, ← hrows]
      exact ⟨rfl, rfl, rfl, rfl⟩

theorem sumAmounts_shift (l : List Commission) :
    ∀ a : JsNum,
      List.foldl (fun s c => s.add c.commissionAmount) a l = a.add (sumAmounts l) := by
  induction l with
  | nil =>
    intro a
    rw [List.foldl_nil]
    exact (JsNum.add_zero a).symm
  | cons c l ih =>
    intro a
    have hsum : sumAmounts (c :: l) = c.commissionAmount.add (sumAmounts l) := by
      show List.foldl (fun s x => s.add x.commissionAmount)
        ((JsNum.num 0).add c.commissionAmount) l = _
      rw [ih, JsNum.zero_add]
    rw [List.foldl_cons, ih, hsum, JsNum.add_assoc]

theorem sumAmounts_cons (c : Commission) (l : List Commission) :
    sumAmounts (c :: l) = c.commissionAmount.add (sumAmounts l) := by
  show List.foldl (fun s x => s.add x.commissionAmount)
    ((JsNum.num 0).add c.commissionAmount) l = _
  rw [sumAmounts_shift, JsNum.zero_add]

/-- Every commission row is counted exactly once across the three status
buckets of the summary. -/
theorem sumAmounts_partition (rows : List Commission) :
    sumAmounts rows =
      ((sumAmounts (rows.filter (fun c => c.status == CommissionStatus.paid))).add
        (sumAmounts (rows.filter (fun c => c.status == CommissionStatus.calculated)))).add
        (sumAmounts (rows.filter (fun c =>
          c.status != CommissionStatus.paid &&
            c.status != CommissionStatus.calculated))) := by
  induction rows with
  | nil => simp [sumAmounts, JsNum.add_zero]
  | cons c rows ih =>
    rw [sumAmounts_cons]
    cases hstat : c.status <;>
      simp [List.filter_cons, hstat, sumAmounts_cons, ih, JsNum.add_assoc,
        JsNum.add_comm, JsNum.add_left_comm]

/-- A list of numeric nonnegative amounts has a numeric nonnegative sum. -/
theorem sumAmounts_num (rows : List Commission)
    (h : ∀ c ∈ rows, ∃ q, c.commissionAmount = JsNum.num q ∧ 0 ≤ q) :
    ∃ s, sumAmounts rows = JsNum.num s ∧ 0 ≤ s := by
  induction rows with
  | nil => exact ⟨0, rfl, le_refl 0⟩
  | cons c rows ih =>
    obtain ⟨q, hq, hq0⟩ := h c (List.mem_cons_self c rows)
    obtain ⟨s, hs, hs0⟩ := ih (fun x hx => h x (List.mem_cons_of_mem c hx))
    refine ⟨q + s, ?_, by linarith⟩
    rw [sumAmounts_cons, hq, hs]
    rfl

/-- A numeric nonnegative list with a positive member has a positive sum. -/
theorem sumAmounts_pos_of_mem (rows : List Commission) (c : Commission)
    (hmem : c ∈ rows) (hpos : ∃ q, c.commissionAmount = JsNum.num q ∧ 0 < q)
    (h : ∀ x ∈ rows, ∃ q, x.commissionAmount = JsNum.num q ∧ 0 ≤ q) :
    ∃ s, sumAmounts rows = JsNum.num s ∧ 0 < s := by
  revert h
  induction hmem with
  | head rows =>
    intro h
    obtain ⟨q, hq, hq0⟩ := hpos
    obtain ⟨s, hs, hs0⟩ := sumAmounts_num _ (fun x hx => h x (List.mem_cons_of_mem _ hx))
    refine ⟨q + s, ?_, by linarith⟩
    rw [sumAmounts_cons, hq, hs]
    rfl
  | tail a hmem2 ih =>
    intro h
    obtain ⟨qa, hqa, hqa0⟩ := h a (List.mem_cons_self _ _)
    obtain ⟨s, hs, hs0⟩ := ih (fun x hx => h x (List.mem_cons_of_mem _ hx))
    refine ⟨qa + s, ?_, by linarith⟩
    rw [sumAmounts_cons, hqa, hs]
    rfl

/-! Theorems settling the claims. -/

/-- C2: the claim (and the spec) require `calculateAndCreateCommission` to be
idempotent — at most one non-cancelled Commission per (orderId, sellerId) even
under re-invocation.  The code has no such guard: on the concrete delivered
order of `dupStore`, the first invocation leaves one non-cancelled row for
(o1, s1) and a second invocation appends a duplicate, leaving two. -/
theorem claim2_second_invocation_duplicates :
    ((calculateAndCreateCommission dupStore "o1").toOption.map (fun r =>
      (r.2.commissions.filter (fun c =>
        c.orderId == "o1" && c.sellerId == "s1" &&
          c.status != CommissionStatus.cancelled)).length)) = some 1 ∧
    (((calculateAndCreateCommission dupStore "o1").bind (fun r =>
        calculateAndCreateCommission r.2 "o1")).toOption.map (fun r =>
      (r.2.commissions.filter (fun c =>
        c.orderId == "o1" && c.sellerId == "s1" &&
          c.status != CommissionStatus.cancelled)).length)) = some 2 := by
  constructor <;>
    norm_num +decide [calculateAndCreateCommission, itemsOfOrder, sellerCommissions,
      addItemCommission, itemSeller, itemPrice, jsMulUndef, JsNum.mul, JsNum.add,
      getCommissionRate, dupStore, dupOrder, dupItem, Except.bind, Except.toOption]

/-- C3: the claim (and the spec scenario) require per-seller amounts of
summed quantity times unit price times rate/100 — 2.00 for seller A and 3.00
for seller B.  But the source reads `item.price`, a property the OrderItem
entity does not declare (it has only `unitPrice` and `totalPrice`), so every
per-item total is `quantity * undefined = NaN` and the persisted amounts are
NaN rather than the attributed values the claim states. -/
theorem claim3_commission_amounts_nan :
    (calculateAndCreateCommission scenarioStore "o1").toOption.map (fun r =>
        r.1.map (fun c => (c.sellerId, c.commissionAmount, c.status))) =
      some [("sellerA", JsNum.nan, CommissionStatus.calculated),
        ("sellerB", JsNum.nan, CommissionStatus.calculated)] ∧
    sellerTotal (itemsOfOrder scenarioStore "o1") "sellerA" *
      (getCommissionRate "sellerA" / 100) = 2 ∧
    sellerTotal (itemsOfOrder scenarioStore "o1") "sellerB" *
      (getCommissionRate "sellerB" / 100) = 3 ∧
    JsNum.nan ≠ JsNum.num 2 ∧ JsNum.nan ≠ JsNum.num 3 := by
  refine ⟨?_, ?_, ?_, by decide, by decide⟩ <;>
    norm_num +decide [calculateAndCreateCommission, itemsOfOrder, sellerCommissions,
      addItemCommission, itemSeller, itemPrice, jsMulUndef, JsNum.mul, JsNum.add,
      sellerTotal, getCommissionRate, scenarioStore, scenarioOrder, scenarioItemA,
      scenarioItemB, Except.toOption]

/-- C9 (amended): every Commission row persisted by the engine stores the
whole `totalAmount` of the order as its order amount — not the per-seller
attributed sum — together with the default rate; the stored commission
amount is NaN, since the computation reads the absent `price` property. -/
theorem claim9_order_amount_is_total :
    ∀ (st : CheckoutStore) (oid : String) (order : Order) (rows : List Commission)
      (st2 : CheckoutStore),
      st.orders.find? (fun o => o.id == oid) = some order →
      calculateAndCreateCommission st oid = .ok (rows, st2) →
      ∀ r ∈ rows, r.orderAmount = order.totalAmount ∧
        r.commissionRate = getCommissionRate r.sellerId ∧
        r.commissionAmount = JsNum.nan := by
  intro st oid order rows st2 hfind hok
  unfold calculateAndCreateCommission at hok
  simp only [hfind] at hok
  by_cases hst : (order.status != OrderStatus.delivered) = true
  · rw [if_pos hst] at hok; cases hok
  · rw [if_neg hst] at hok
    simp only [Except.ok.injEq, Prod.mk.injEq] at hok
    obtain ⟨hrows, -⟩ := hok
    subst hrows
    intro r hr
    obtain ⟨e, he, rfl⟩ := List.mem_map.mp hr
    obtain ⟨hamt, hrate⟩ := sellerCommissions_entries _ e he
    exact ⟨rfl, hrate, hamt⟩

/-- C9 counterexample: on the two-seller scenario order with total 50, the
persisted rows store orderAmount 50 for seller A although the
attributed sum of seller A (quantity times unit price over its items) is 20. -/
theorem claim9_counterexample_total_not_attributed :
    (calculateAndCreateCommission scenarioStore "o1").toOption.map (fun r =>
        r.1.map (fun c => (c.sellerId, c.orderAmount))) =
      some [("sellerA", (50 : Rat)), ("sellerB", 50)] ∧
    sellerTotal (itemsOfOrder scenarioStore "o1") "sellerA" = 20 ∧
    ¬((50 : Rat) = 20) := by
  refine ⟨?_, ?_, by norm_num⟩ <;>
    norm_num +decide [calculateAndCreateCommission, itemsOfOrder, sellerCommissions,
      addItemCommission, itemSeller, itemPrice, jsMulUndef, JsNum.mul, JsNum.add,
      sellerTotal, getCommissionRate, scenarioStore, scenarioOrder, scenarioItemA,
      scenarioItemB, Except.toOption]

/-- C9 witness: the amended theorem applied to the concrete scenario order. -/
theorem claim9_order_amount_witness :
    scenarioStore.orders.find? (fun o => o.id == "o1") = some scenarioOrder ∧
    calculateAndCreateCommission scenarioStore "o1" =
      .ok ([scenarioRowA, scenarioRowB],
        { scenarioStore with commissions := [scenarioRowA, scenarioRowB] }) ∧
    ∀ r ∈ [scenarioRowA, scenarioRowB], r.orderAmount = scenarioOrder.totalAmount ∧
      r.commissionRate = getCommissionRate r.sellerId ∧
      r.commissionAmount = JsNum.nan := by
  have hok : calculateAndCreateCommission scenarioStore "o1" =
      .ok ([scenarioRowA, scenarioRowB],
        { scenarioStore with commissions := [scenarioRowA, scenarioRowB] }) := by
    norm_num +decide [calculateAndCreateCommission, itemsOfOrder, sellerCommissions,
      addItemCommission, itemSeller, itemPrice, jsMulUndef, JsNum.mul, JsNum.add,
      getCommissionRate, scenarioStore, scenarioOrder, scenarioItemA, scenarioItemB,
      scenarioRowA, scenarioRowB]
  exact ⟨rfl, hok, claim9_order_amount_is_total scenarioStore "o1" scenarioOrder
    [scenarioRowA, scenarioRowB] _ rfl hok⟩

/-- C5 (amended): `markCommissionAsPaid(commissionId)` takes no payout
reference; it fails only when the commission is absent (NotFound), and
otherwise sets status `paid` and stamps `paidAt` regardless of the
current status of the commission, leaving all other fields unchanged. -/
theorem claim5_mark_paid_unguarded :
    (∀ (st : CheckoutStore) (cid : String) (now : Nat),
      st.commissions.find? (fun x => x.id == cid) = none →
      markCommissionAsPaid st cid now = .error .commissionNotFound) ∧
    (∀ (st : CheckoutStore) (cid : String) (now : Nat) (c : Commission),
      st.commissions.find? (fun x => x.id == cid) = some c →
      markCommissionAsPaid st cid now =
        .ok ({ c with status := CommissionStatus.paid, paidAt := some now },
          { st with commissions := st.commissions.map (fun r =>
              if r.id == cid then
                { c with status := CommissionStatus.paid, paidAt := some now }
              else r) })) := by
  constructor
  · intro st cid now h
    simp [markCommissionAsPaid, h]
  · intro st cid now c h
    simp [markCommissionAsPaid, h]

/-- C5 counterexample: the claim requires `markCommissionAsPaid` to fail with
InvalidState on a commission whose status is not `calculated`; on the concrete
cancelled commission c1 the code instead succeeds and marks it paid. -/
theorem claim5_counterexample_cancelled_marked_paid :
    cancelledRow.status = CommissionStatus.cancelled ∧
    markCommissionAsPaid cancelledRowStore "c1" 7 =
      .ok ({ cancelledRow with status := CommissionStatus.paid, paidAt := some 7 },
        { cancelledRowStore with commissions :=
            [{ cancelledRow with status := CommissionStatus.paid, paidAt := some 7 }] }) := by
  constructor
  · rfl
  · norm_num +decide [markCommissionAsPaid, cancelledRowStore, cancelledRow]

/-- C5 witness: the amended theorem applied to the cancelled commission. -/
theorem claim5_mark_paid_witness :
    cancelledRowStore.commissions.find? (fun x => x.id == "c1") = some cancelledRow ∧
    markCommissionAsPaid cancelledRowStore "c1" 7 =
      .ok ({ cancelledRow with status := CommissionStatus.paid, paidAt := some 7 },
        { cancelledRowStore with commissions := cancelledRowStore.commissions.map (fun r =>
            if r.id == "c1" then
              { cancelledRow with status := CommissionStatus.paid, paidAt := some 7 }
            else r) }) :=
  ⟨rfl, claim5_mark_paid_unguarded.2 cancelledRowStore "c1" 7 cancelledRow rfl⟩

/-- C10 (amended): `getCommissionSummary` sums `totalEarned` over all of the
rows of the seller regardless of status, `totalPaid` over `paid` rows only
and `pendingAmount` over `calculated` rows only (JS sums, so a NaN amount
poisons them), and `totalEarned` exceeds `totalPaid + pendingAmount` by
exactly the amounts of the remaining (`pending`/`cancelled`) rows; when all
amounts are numeric and nonnegative, `totalPaid + pendingAmount` is at most
`totalEarned`, strictly whenever some `pending` or `cancelled` row has
positive amount. -/
theorem claim10_summary_decomposition :
    ∀ (st : CheckoutStore) (sid : String),
      (getCommissionSummary st sid).totalEarned =
        sumAmounts (st.commissions.filter (fun c => c.sellerId == sid)) ∧
      (getCommissionSummary st sid).totalPaid =
        sumAmounts ((st.commissions.filter (fun c => c.sellerId == sid)).filter
          (fun c => c.status == CommissionStatus.paid)) ∧
      (getCommissionSummary st sid).pendingAmount =
        sumAmounts ((st.commissions.filter (fun c => c.sellerId == sid)).filter
          (fun c => c.status == CommissionStatus.calculated)) ∧
      (getCommissionSummary st sid).totalEarned =
        (((getCommissionSummary st sid).totalPaid).add
          ((getCommissionSummary st sid).pendingAmount)).add
          (sumAmounts ((st.commissions.filter (fun c => c.sellerId == sid)).filter
            (fun c => c.status != CommissionStatus.paid &&
              c.status != CommissionStatus.calculated))) ∧
      ((∀ c ∈ st.commissions.filter (fun c => c.sellerId == sid),
          ∃ q, c.commissionAmount = JsNum.num q ∧ 0 ≤ q) →
        ∃ p e, ((getCommissionSummary st sid).totalPaid).add
            ((getCommissionSummary st sid).pendingAmount) = JsNum.num p ∧
          (getCommissionSummary st sid).totalEarned = JsNum.num e ∧ p ≤ e) ∧
      ((∀ c ∈ st.commissions.filter (fun c => c.sellerId == sid),
          ∃ q, c.commissionAmount = JsNum.num q ∧ 0 ≤ q) →
        (∃ c ∈ st.commissions.filter (fun c => c.sellerId == sid),
          (c.status = CommissionStatus.pending ∨ c.status = CommissionStatus.cancelled) ∧
            ∃ q, c.commissionAmount = JsNum.num q ∧ 0 < q) →
        ∃ p e, ((getCommissionSummary st sid).totalPaid).add
            ((getCommissionSummary st sid).pendingAmount) = JsNum.num p ∧
          (getCommissionSummary st sid).totalEarned = JsNum.num e ∧ p < e) := by
  intro st sid
  refine ⟨rfl, rfl, rfl, sumAmounts_partition _, ?_, ?_⟩
  · intro hnn
    obtain ⟨p1, hP, h1⟩ := sumAmounts_num
      ((st.commissions.filter (fun c => c.sellerId == sid)).filter
        (fun c => c.status == CommissionStatus.paid))
      (fun x hx => hnn x (List.mem_of_mem_filter hx))
    obtain ⟨p2, hC, h2⟩ := sumAmounts_num
      ((st.commissions.filter (fun c => c.sellerId == sid)).filter
        (fun c => c.status == CommissionStatus.calculated))
      (fun x hx => hnn x (List.mem_of_mem_filter hx))
    obtain ⟨p3, hO, h3⟩ := sumAmounts_num
      ((st.commissions.filter (fun c => c.sellerId == sid)).filter
        (fun c => c.status != CommissionStatus.paid &&
          c.status != CommissionStatus.calculated))
      (fun x hx => hnn x (List.mem_of_mem_filter hx))
    have htp : (getCommissionSummary st sid).totalPaid = JsNum.num p1 := hP
    have hpd : (getCommissionSummary st sid).pendingAmount = JsNum.num p2 := hC
    have hte : (getCommissionSummary st sid).totalEarned = JsNum.num ((p1 + p2) + p3) := by
      show sumAmounts (st.commissions.filter (fun c => c.sellerId == sid)) = _
      rw [sumAmounts_partition (st.commissions.filter (fun c => c.sellerId == sid)),
        hP, hC, hO]
      rfl
    exact ⟨p1 + p2, (p1 + p2) + p3, by rw [htp, hpd]; rfl, hte, by linarith⟩
  · intro hnn hex
    obtain ⟨c, hc, hstat, hq⟩ := hex
    obtain ⟨p1, hP, h1⟩ := sumAmounts_num
      ((st.commissions.filter (fun c => c.sellerId == sid)).filter
        (fun c => c.status == CommissionStatus.paid))
      (fun x hx => hnn x (List.mem_of_mem_filter hx))
    obtain ⟨p2, hC, h2⟩ := sumAmounts_num
      ((st.commissions.filter (fun c => c.sellerId == sid)).filter
        (fun c => c.status == CommissionStatus.calculated))
      (fun x hx => hnn x (List.mem_of_mem_filter hx))
    have hcmem : c ∈ (st.commissions.filter (fun c => c.sellerId == sid)).filter
        (fun c => c.status != CommissionStatus.paid &&
          c.status != CommissionStatus.calculated) := by
      refine List.mem_filter.mpr ⟨hc, ?_⟩
      rcases hstat with h | h <;> simp [h]
    obtain ⟨p3, hO, h3⟩ := sumAmounts_pos_of_mem _ c hcmem hq
      (fun x hx => hnn x (List.mem_of_mem_filter hx))
    have htp : (getCommissionSummary st sid).totalPaid = JsNum.num p1 := hP
    have hpd : (getCommissionSummary st sid).pendingAmount = JsNum.num p2 := hC
    have hte : (getCommissionSummary st sid).totalEarned = JsNum.num ((p1 + p2) + p3) := by
      show sumAmounts (st.commissions.filter (fun c => c.sellerId == sid)) = _
      rw [sumAmounts_partition (st.commissions.filter (fun c => c.sellerId == sid)),
        hP, hC, hO]
      rfl
    exact ⟨p1 + p2, (p1 + p2) + p3, by rw [htp, hpd]; rfl, hte, by linarith⟩

/-- C10 counterexample: with a single cancelled row of amount 0 for seller
s1, a cancelled row exists yet totalEarned equals totalPaid + pendingAmount
(all are 0), so the claimed strict inequality fails. -/
theorem claim10_counterexample_zero_cancelled :
    (zeroCancelledStore.commissions.filter (fun c => c.sellerId == "s1")).any
      (fun c => c.status == CommissionStatus.cancelled) = true ∧
    ((getCommissionSummary zeroCancelledStore "s1").totalPaid).add
        ((getCommissionSummary zeroCancelledStore "s1").pendingAmount) =
      (getCommissionSummary zeroCancelledStore "s1").totalEarned ∧
    ¬(∃ p e : Rat,
        ((getCommissionSummary zeroCancelledStore "s1").totalPaid).add
          ((getCommissionSummary zeroCancelledStore "s1").pendingAmount) = JsNum.num p ∧
        (getCommissionSummary zeroCancelledStore "s1").totalEarned = JsNum.num e ∧
        p < e) := by
  have h0 : ((getCommissionSummary zeroCancelledStore "s1").totalPaid).add
      ((getCommissionSummary zeroCancelledStore "s1").pendingAmount) = JsNum.num 0 := by
    norm_num +decide [getCommissionSummary, sumAmounts, JsNum.add, zeroCancelledStore,
      zeroCancelledRow]
  have h1 : (getCommissionSummary zeroCancelledStore "s1").totalEarned = JsNum.num 0 := by
    norm_num +decide [getCommissionSummary, sumAmounts, JsNum.add, zeroCancelledStore,
      zeroCancelledRow]
  refine ⟨by decide, by rw [h0, h1], ?_⟩
  rintro ⟨p, e, hp, he, hlt⟩
  rw [h0] at hp
  rw [h1] at he
  obtain rfl : (0 : Rat) = p := JsNum.num.inj hp
  obtain rfl : (0 : Rat) = e := JsNum.num.inj he
  exact absurd hlt (lt_irrefl 0)

/-- C10 witness: the decomposition theorem applied to a seller with a paid
(5), a calculated (7) and a positive cancelled (3) row: 5 + 7 < 15. -/
theorem claim10_summary_witness :
    ∃ p e : Rat,
      ((getCommissionSummary mixedSummaryStore "s1").totalPaid).add
        ((getCommissionSummary mixedSummaryStore "s1").pendingAmount) = JsNum.num p ∧
      (getCommissionSummary mixedSummaryStore "s1").totalEarned = JsNum.num e ∧
      p < e := by
  refine (claim10_summary_decomposition mixedSummaryStore "s1").2.2.2.2.2 ?_ ?_
  · intro c hc
    have hlist : mixedSummaryStore.commissions.filter (fun c => c.sellerId == "s1") =
        [mixedPaidRow, mixedCalculatedRow, mixedCancelledRow] := by
      norm_num +decide [mixedSummaryStore, mixedPaidRow, mixedCalculatedRow,
        mixedCancelledRow]
    rw [hlist] at hc
    have hc2 : c = mixedPaidRow ∨ c = mixedCalculatedRow ∨ c = mixedCancelledRow := by
      simpa using hc
    rcases hc2 with rfl | rfl | rfl
    · exact ⟨5, rfl, by norm_num⟩
    · exact ⟨7, rfl, by norm_num⟩
    · exact ⟨3, rfl, by norm_num⟩
  · exact ⟨mixedCancelledRow, by decide, Or.inr rfl, 3, rfl, by norm_num⟩

/-- C4: `acceptOrder` fails with AccessDenied when the caller owns no item of
the order (checked first), with NotFound when the order is absent (given
ownership), and with InvalidState when the order is not `seller_notified`
(given ownership and existence); on the concrete confirmed order it fails with
InvalidState and leaves the store — status history included — unchanged. -/
theorem claim4_accept_order_errors :
    (∀ (st : CheckoutStore) (sellerId orderId : String) (notes : Option String)
        (ept : Option Nat),
      (ownedItems st sellerId orderId).isEmpty = true →
      acceptOrder st sellerId orderId notes ept = .error .accessDenied) ∧
    (∀ (st : CheckoutStore) (sellerId orderId : String) (notes : Option String)
        (ept : Option Nat),
      (ownedItems st sellerId orderId).isEmpty = false →
      st.orders.find? (fun o => o.id == orderId) = none →
      acceptOrder st sellerId orderId notes ept = .error .orderNotFound) ∧
    (∀ (st : CheckoutStore) (sellerId orderId : String) (notes : Option String)
        (ept : Option Nat) (order : Order),
      (ownedItems st sellerId orderId).isEmpty = false →
      st.orders.find? (fun o => o.id == orderId) = some order →
      ¬(order.status = OrderStatus.seller_notified) →
      acceptOrder st sellerId orderId notes ept = .error .invalidState) ∧
    acceptOrder confirmedStore "s1" "o1" none none = .error .invalidState ∧
    applySellerOp confirmedStore (.accept "s1" "o1" none none) = confirmedStore := by
  refine ⟨?_, ?_, ?_, ?_, ?_⟩
  · intro st sellerId orderId notes ept h
    simp [acceptOrder, h]
  · intro st sellerId orderId notes ept h hfind
    simp [acceptOrder, h, hfind]
  · intro st sellerId orderId notes ept order h hfind hstatus
    simp [acceptOrder, h, hfind, hstatus]
  · rfl
  · rfl

/-- C8: a transition to `delivered` always reports success whatever the
commission engine does, and when the engine fails on the already-persisted
intermediate store the final store is exactly that intermediate store: the
order mutation and its history row are persisted and the failure never
propagates. -/
theorem claim8_commission_failure_isolated :
    ∀ (engine : CheckoutStore → String →
        Except ServiceError (List Commission × CheckoutStore))
      (st : CheckoutStore) (sellerId orderId : String) (notes tn : Option String)
      (edd : Option Nat) (order : Order),
      (ownedItems st sellerId orderId).isEmpty = false →
      st.orders.find? (fun o => o.id == orderId) = some order →
      isValidStatusTransition order.status OrderStatus.delivered = true →
      (∃ r, updateOrderStatusWith engine st sellerId orderId OrderStatus.delivered
          notes tn edd = .ok r) ∧
      (∀ e, engine (appendHistory
            (saveOrder st (updatedOrder order OrderStatus.delivered notes tn edd))
            (updateHistoryRow orderId OrderStatus.delivered order.status notes)) orderId
          = .error e →
        updateOrderStatusWith engine st sellerId orderId OrderStatus.delivered notes tn edd =
          .ok (updatedOrder order OrderStatus.delivered notes tn edd,
            appendHistory
              (saveOrder st (updatedOrder order OrderStatus.delivered notes tn edd))
              (updateHistoryRow orderId OrderStatus.delivered order.status notes))) := by
  intro engine st sellerId orderId notes tn edd order h1 hfind hvalid
  constructor
  · cases heng : engine (appendHistory
        (saveOrder st (updatedOrder order OrderStatus.delivered notes tn edd))
        (updateHistoryRow orderId OrderStatus.delivered order.status notes)) orderId with
    | ok res =>
      exact ⟨(updatedOrder order OrderStatus.delivered notes tn edd, res.2),
        by simp [updateOrderStatusWith, h1, hfind, hvalid, heng]⟩
    | error e =>
      exact ⟨(updatedOrder order OrderStatus.delivered notes tn edd,
          appendHistory (saveOrder st (updatedOrder order OrderStatus.delivered notes tn edd))
            (updateHistoryRow orderId OrderStatus.delivered order.status notes)),
        by simp [updateOrderStatusWith, h1, hfind, hvalid, heng]⟩
  · intro e heng
    simp [updateOrderStatusWith, h1, hfind, hvalid, heng]

/-- C4 witness: the InvalidState branch exercised on the confirmed order. -/
theorem claim4_accept_order_witness :
    (ownedItems confirmedStore "s1" "o1").isEmpty = false ∧
    confirmedStore.orders.find? (fun o => o.id == "o1") = some confirmedOrder ∧
    ¬(confirmedOrder.status = OrderStatus.seller_notified) ∧
    acceptOrder confirmedStore "s1" "o1" none none = .error .invalidState :=
  ⟨rfl, rfl, by decide,
    claim4_accept_order_errors.2.2.1 confirmedStore "s1" "o1" none none
      confirmedOrder rfl rfl (by decide)⟩

/-- C8 witness: the always-failing engine on the shipped order. -/
theorem claim8_commission_failure_witness :
    (ownedItems shippedStore "s1" "o1").isEmpty = false ∧
    shippedStore.orders.find? (fun o => o.id == "o1") = some shippedOrder ∧
    isValidStatusTransition shippedOrder.status OrderStatus.delivered = true ∧
    updateOrderStatusWith failingEngine shippedStore "s1" "o1" OrderStatus.delivered
        none none none =
      .ok (updatedOrder shippedOrder OrderStatus.delivered none none none,
        appendHistory (saveOrder shippedStore
            (updatedOrder shippedOrder OrderStatus.delivered none none none))
          (updateHistoryRow "o1" OrderStatus.delivered shippedOrder.status none)) :=
  ⟨rfl, rfl, by decide,
    (claim8_commission_failure_isolated failingEngine shippedStore "s1" "o1" none none none
      shippedOrder rfl rfl (by decide)).2 .orderNotFound rfl⟩

/-- A successful `acceptOrder` appends exactly the accepted-history row. -/
theorem acceptOrder_ok_history (st : CheckoutStore) (sellerId orderId : String)
    (notes : Option String) (ept : Option Nat) (r : Order × CheckoutStore)
    (h : acceptOrder st sellerId orderId notes ept = .ok r) :
    r.2.statusHistory = st.statusHistory ++
      [{ orderId := orderId, status := OrderStatus.seller_accepted,
         previousStatus := OrderStatus.seller_notified,
         notes := "Order accepted by seller. " ++ notesOrEmpty notes,
         notificationSent := true }] := by
  unfold acceptOrder at h
  by_cases h1 : (ownedItems st sellerId orderId).isEmpty = true
  · rw [if_pos h1] at h; cases h
  · rw [if_neg h1] at h
    cases hfind : st.orders.find? (fun o => o.id == orderId) with
    | none => simp [hfind] at h
    | some order =>
      simp only [hfind] at h
      by_cases h2 : (order.status != OrderStatus.seller_notified) = true
      · rw [if_pos h2] at h; cases h
      · rw [if_neg h2] at h
        have := Except.ok.inj h
        subst this
        rfl

/-- A successful `updateOrderStatus` validates the transition and appends
exactly the derived history row (the engine never touches the history). -/
theorem updateOrderStatus_ok_inv (st : CheckoutStore) (sellerId orderId : String)
    (status : OrderStatus) (notes tn : Option String) (edd : Option Nat)
    (r : Order × CheckoutStore)
    (h : updateOrderStatus st sellerId orderId status notes tn edd = .ok r) :
    ∃ order, st.orders.find? (fun o => o.id == orderId) = some order ∧
      isValidStatusTransition order.status status = true ∧
      r.2.statusHistory = st.statusHistory ++
        [updateHistoryRow orderId status order.status notes] := by
  unfold updateOrderStatus updateOrderStatusWith at h
  by_cases h1 : (ownedItems st sellerId orderId).isEmpty = true
  · rw [if_pos h1] at h; cases h
  · rw [if_neg h1] at h
    cases hfind : st.orders.find? (fun o => o.id == orderId) with
    | none => simp [hfind] at h
    | some order =>
      simp only [hfind] at h
      by_cases hv : isValidStatusTransition order.status status = true
      · rw [if_neg (by simp [hv])] at h
        refine ⟨order, rfl, hv, ?_⟩
        have := Except.ok.inj h
        subst this
        by_cases hd : status = OrderStatus.delivered
        · rw [if_pos hd]
          cases heng : calculateAndCreateCommission
              (appendHistory (saveOrder st (updatedOrder order status notes tn edd))
                (updateHistoryRow orderId status order.status notes)) orderId with
          | ok res =>
            exact (calculateAndCreateCommission_frame _ _ res.1 res.2 (by rw [heng])).1
          | error e => rfl
        · rw [if_neg hd]
          rfl
      · rw [if_pos (by simp [hv])] at h
        cases h

/-- Each seller request preserves validity of the recorded history. -/
theorem applySellerOp_historyValid (st : CheckoutStore) (op : SellerOp)
    (h : historyValid st) : historyValid (applySellerOp st op) := by
  cases op with
  | accept sellerId orderId notes ept =>
    cases hres : acceptOrder st sellerId orderId notes ept with
    | error e =>
      have heq : applySellerOp st (SellerOp.accept sellerId orderId notes ept) = st := by
        simp [applySellerOp, hres]
      rw [heq]
      exact h
    | ok r =>
      have heq : applySellerOp st (SellerOp.accept sellerId orderId notes ept) = r.2 := by
        simp [applySellerOp, hres]
      rw [heq]
      intro row hrow
      rw [acceptOrder_ok_history st sellerId orderId notes ept r hres] at hrow
      rcases List.mem_append.mp hrow with hm | hm
      · exact h row hm
      · rw [List.mem_singleton] at hm
        subst hm
        rfl
  | update sellerId orderId status notes tn edd =>
    cases hres : updateOrderStatus st sellerId orderId status notes tn edd with
    | error e =>
      have heq : applySellerOp st (SellerOp.update sellerId orderId status notes tn edd) = st := by
        simp [applySellerOp, hres]
      rw [heq]
      exact h
    | ok r =>
      have heq : applySellerOp st (SellerOp.update sellerId orderId status notes tn edd) = r.2 := by
        simp [applySellerOp, hres]
      rw [heq]
      obtain ⟨order, -, hv, hhist⟩ :=
        updateOrderStatus_ok_inv st sellerId orderId status notes tn edd r hres
      intro row hrow
      rw [hhist] at hrow
      rcases List.mem_append.mp hrow with hm | hm
      · exact h row hm
      · rw [List.mem_singleton] at hm
        subst hm
        exact hv

/-- C1: `isValidStatusTransition` is exactly the transition table of the spec;
`updateOrderStatus` succeeds only on transitions of the table and fails with
the invalid-transition error otherwise (given ownership and existence); and
replaying any sequence of seller operations keeps every recorded history row a
transition of the table. -/
theorem claim1_transition_table :
    (∀ c n : OrderStatus,
      isValidStatusTransition c n = true ↔ (c, n) ∈ allowedTransitionPairs) ∧
    (∀ (st : CheckoutStore) (sellerId orderId : String) (status : OrderStatus)
        (notes tn : Option String) (edd : Option Nat) (r : Order × CheckoutStore),
      updateOrderStatus st sellerId orderId status notes tn edd = .ok r →
      ∃ order, st.orders.find? (fun o => o.id == orderId) = some order ∧
        isValidStatusTransition order.status status = true) ∧
    (∀ (st : CheckoutStore) (sellerId orderId : String) (status : OrderStatus)
        (notes tn : Option String) (edd : Option Nat) (order : Order),
      (ownedItems st sellerId orderId).isEmpty = false →
      st.orders.find? (fun o => o.id == orderId) = some order →
      isValidStatusTransition order.status status = false →
      updateOrderStatus st sellerId orderId status notes tn edd =
        .error .invalidTransition) ∧
    (∀ (st : CheckoutStore) (ops : List SellerOp),
      historyValid st → historyValid (runSellerOps st ops)) := by
  refine ⟨by decide, ?_, ?_, ?_⟩
  · intro st sellerId orderId status notes tn edd r h
    obtain ⟨order, hfind, hv, -⟩ :=
      updateOrderStatus_ok_inv st sellerId orderId status notes tn edd r h
    exact ⟨order, hfind, hv⟩
  · intro st sellerId orderId status notes tn edd order h1 hfind hv
    simp [updateOrderStatus, updateOrderStatusWith, h1, hfind, hv]
  · intro st ops
    induction ops generalizing st with
    | nil => intro h; exact h
    | cons op ops ih =>
      intro h
      exact ih _ (applySellerOp_historyValid st op h)

/-- C1 witness: replaying an accept followed by a confirm on the notified
order yields a history whose rows all lie in the table. -/
theorem claim1_transition_table_witness :
    historyValid notifiedStore ∧
    historyValid (runSellerOps notifiedStore
      [.accept "s1" "o1" none none,
       .update "s1" "o1" OrderStatus.confirmed none none none]) ∧
    isValidStatusTransition OrderStatus.shipped OrderStatus.delivered = true ∧
    (OrderStatus.shipped, OrderStatus.delivered) ∈ allowedTransitionPairs := by
  have hinit : historyValid notifiedStore := by
    intro row hrow
    simp [notifiedStore] at hrow
  exact ⟨hinit, claim1_transition_table.2.2.2 notifiedStore _ hinit,
    (claim1_transition_table.1 OrderStatus.shipped OrderStatus.delivered).mpr (by decide),
    by decide⟩

/-- Inversion of a successful `createReferral`: all guards passed, the new
Referral is pending with the 30-day expiration, no prior Referral existed for
the pair, and the usageCount of the consumed code is bumped by one. -/
theorem createReferral_ok_inv (st : ReferralStore) (now : Nat) (newId : String)
    (d : CreateReferralDto) (ref : Referral) (st2 : ReferralStore)
    (h : createReferral st now newId d = .ok (ref, st2)) :
    ref.status = ReferralStatus.pending ∧
    ref.expiresAt = some (now + thirtyDaysMs) ∧
    ref.referredId = d.referredId ∧
    ref.rtype = d.rtype ∧
    st2.referrals = st.referrals ++ [ref] ∧
    (∀ r0 ∈ st.referrals, ¬(r0.referredId = d.referredId ∧ r0.rtype = d.rtype)) ∧
    ∃ rc, st.codes.find? (fun c => c.code == d.referralCode && c.isActive) = some rc ∧
      st2.codes = st.codes.map (fun c =>
        if c.id == rc.id then { rc with usageCount := rc.usageCount + 1 } else c) := by
  unfold createReferral at h
  cases hfind : st.codes.find? (fun c => c.code == d.referralCode && c.isActive) with
  | none => simp [hfind] at h
  | some rc =>
    simp only [hfind] at h
    by_cases hexp : codeIsExpired rc now = true
    · rw [if_pos hexp] at h; cases h
    · rw [if_neg hexp] at h
      by_cases hcap : codeCapReached rc = true
      · rw [if_pos hcap] at h; cases h
      · rw [if_neg hcap] at h
        by_cases hdup : (st.referrals.find? (fun r =>
            r.referredId == d.referredId && r.rtype == d.rtype)).isSome = true
        · rw [if_pos hdup] at h; cases h
        · rw [if_neg hdup] at h
          have hnone : st.referrals.find? (fun r =>
              r.referredId == d.referredId && r.rtype == d.rtype) = none := by
            cases hf2 : st.referrals.find? (fun r =>
                r.referredId == d.referredId && r.rtype == d.rtype) with
            | none => rfl
            | some x => rw [hf2] at hdup; simp at hdup
          have hnodup : ∀ r0 ∈ st.referrals,
              ¬(r0.referredId = d.referredId ∧ r0.rtype = d.rtype) := by
            intro r0 hr0 hpair
            have := List.find?_eq_none.mp hnone r0 hr0
            simp [hpair.1, hpair.2] at this
          have hinj := Except.ok.inj h
          cases hinj
          exact ⟨rfl, rfl, rfl, rfl, rfl, hnodup, rc, rfl, rfl⟩

/-- C6: at most one Referral per (referredId, type): a duplicate
`createReferral` fails (with the duplicate error when the code checks pass)
and writes nothing; success creates a pending Referral with the 30-day default
expiration, bumps the usageCount of the code by exactly one, requires that no
Referral existed for the pair, and preserves the uniqueness invariant. -/
theorem claim6_referral_uniqueness :
    (∀ (st : ReferralStore) (now : Nat) (newId : String) (d : CreateReferralDto)
        (r0 : Referral), r0 ∈ st.referrals →
      r0.referredId = d.referredId → r0.rtype = d.rtype →
      ∃ e, createReferral st now newId d = .error e) ∧
    (∀ (st : ReferralStore) (now : Nat) (newId : String) (d : CreateReferralDto)
        (rc : ReferralCode) (r0 : Referral),
      st.codes.find? (fun c => c.code == d.referralCode && c.isActive) = some rc →
      codeIsExpired rc now = false →
      codeCapReached rc = false →
      r0 ∈ st.referrals → r0.referredId = d.referredId → r0.rtype = d.rtype →
      createReferral st now newId d = .error .alreadyReferred) ∧
    (∀ (st : ReferralStore) (now : Nat) (newId : String) (d : CreateReferralDto)
        (ref : Referral) (st2 : ReferralStore),
      createReferral st now newId d = .ok (ref, st2) →
      ref.status = ReferralStatus.pending ∧
      ref.expiresAt = some (now + thirtyDaysMs) ∧
      st2.referrals = st.referrals ++ [ref] ∧
      (∀ r0 ∈ st.referrals, ¬(r0.referredId = d.referredId ∧ r0.rtype = d.rtype)) ∧
      ∃ rc, st.codes.find? (fun c => c.code == d.referralCode && c.isActive) = some rc ∧
        st2.codes = st.codes.map (fun c =>
          if c.id == rc.id then { rc with usageCount := rc.usageCount + 1 } else c)) ∧
    (∀ (st : ReferralStore) (now : Nat) (newId : String) (d : CreateReferralDto)
        (r : Referral × ReferralStore),
      atMostOnePerPair st.referrals →
      createReferral st now newId d = .ok r →
      atMostOnePerPair r.2.referrals) := by
  refine ⟨?_, ?_, ?_, ?_⟩
  · intro st now newId d r0 hmem hrid hrty
    unfold createReferral
    cases hfind : st.codes.find? (fun c => c.code == d.referralCode && c.isActive) with
    | none => exact ⟨.invalidCode, rfl⟩
    | some rc =>
      by_cases hexp : codeIsExpired rc now = true
      · exact ⟨.codeExpired, by simp [hexp]⟩
      · by_cases hcap : codeCapReached rc = true
        · exact ⟨.usageLimitReached, by simp [hexp, hcap]⟩
        · have hdup : (st.referrals.find? (fun r =>
              r.referredId == d.referredId && r.rtype == d.rtype)).isSome = true := by
            rw [List.find?_isSome]
            exact ⟨r0, hmem, by simp [hrid, hrty]⟩
          exact ⟨.alreadyReferred, by simp [hexp, hcap, hdup]⟩
  · intro st now newId d rc r0 hfind hexp hcap hmem hrid hrty
    unfold createReferral
    rw [hfind]
    have hdup : (st.referrals.find? (fun r =>
        r.referredId == d.referredId && r.rtype == d.rtype)).isSome = true := by
      rw [List.find?_isSome]
      exact ⟨r0, hmem, by simp [hrid, hrty]⟩
    simp [hexp, hcap, hdup]
  · intro st now newId d ref st2 h
    obtain ⟨h1, h2, -, -, h5, h6, h7⟩ := createReferral_ok_inv st now newId d ref st2 h
    exact ⟨h1, h2, h5, h6, h7⟩
  · intro st now newId d r hmo hok
    obtain ⟨-, -, hrid, hrty, happ, hnodup, -⟩ :=
      createReferral_ok_inv st now newId d r.1 r.2 (by rw [hok])
    unfold atMostOnePerPair at hmo ⊢
    rw [happ, List.pairwise_append]
    refine ⟨hmo, by simp, ?_⟩
    intro a ha b hb
    rw [List.mem_singleton] at hb
    subst hb
    intro hpair
    exact hnodup a ha ⟨hpair.1.trans hrid, hpair.2.trans hrty⟩

/-- C7: the claim (and the scenario of the spec) say re-running the seller-account
accrual creates no second ReferralCommission row.  The code has no guard: on
the concrete active referral r1 (rate 10) with seller revenue 1000, the first
run correctly creates one earned row of amount 100 and accrues 100, but a
second run appends a second row of amount 100 and accrues again to 200. -/
theorem claim7_seller_referral_rerun_duplicates :
    ((processSellerReferralCommission sellerReferralStore "s1").refCommissions.map
      (fun r => (r.referralId, r.orderAmount, r.commissionRate, r.commissionAmount,
        r.status))) =
      [("r1", (1000 : Rat), (10 : Rat), (100 : Rat), RefCommissionStatus.earned)] ∧
    ((processSellerReferralCommission sellerReferralStore "s1").referrals.map
      (fun r => r.totalCommission)) = [(100 : Rat)] ∧
    ((processSellerReferralCommission
        (processSellerReferralCommission sellerReferralStore "s1") "s1").refCommissions.map
      (fun r => r.commissionAmount)) = [(100 : Rat), 100] ∧
    ((processSellerReferralCommission
        (processSellerReferralCommission sellerReferralStore "s1") "s1").referrals.map
      (fun r => r.totalCommission)) = [(200 : Rat)] := by
  refine ⟨?_, ?_, ?_, ?_⟩ <;>
    norm_num +decide [processSellerReferralCommission, sellerReferralStore,
      activeSellerReferral]

/-- C6 witness: duplicate rejection and a successful creation on the concrete
store, through the uniqueness theorem. -/
theorem claim6_referral_witness :
    existingReferral ∈ referralDemoStore.referrals ∧
    createReferral referralDemoStore 0 "r9" referralDtoDup = .error .alreadyReferred ∧
    createReferral referralDemoStore 0 "r9" referralDtoNew = .ok (createdReferral, bumpedStore) ∧
    createdReferral.status = ReferralStatus.pending ∧
    createdReferral.expiresAt = some (0 + thirtyDaysMs) ∧
    atMostOnePerPair bumpedStore.referrals := by
  have hok : createReferral referralDemoStore 0 "r9" referralDtoNew =
      .ok (createdReferral, bumpedStore) := by
    norm_num +decide [createReferral, referralDemoStore, referralDtoNew, demoCode,
      existingReferral, codeIsExpired, codeCapReached, createdReferral, bumpedStore,
      thirtyDaysMs]
  have hmo : atMostOnePerPair referralDemoStore.referrals := by
    simp [atMostOnePerPair, referralDemoStore]
  refine ⟨by decide, ?_, hok, ?_, ?_, ?_⟩
  · exact claim6_referral_uniqueness.2.1 referralDemoStore 0 "r9" referralDtoDup
      demoCode existingReferral rfl rfl rfl (by decide) rfl rfl
  · exact (claim6_referral_uniqueness.2.2.1 referralDemoStore 0 "r9" referralDtoNew
      createdReferral bumpedStore hok).1
  · exact (claim6_referral_uniqueness.2.2.1 referralDemoStore 0 "r9" referralDtoNew
      createdReferral bumpedStore hok).2.1
  · exact claim6_referral_uniqueness.2.2.2 referralDemoStore 0 "r9" referralDtoNew
      (createdReferral, bumpedStore) hmo hok

end Rikhh
